import Mathlib

/-! Verification development for the CameraMeasureApp measurement core
(src/src/CameraMeasureApp.tsx): the geometric data model, the pixel-to-unit
calibration step, the interaction mode state machine, the Sobel edge filter,
and the CSV export rows.  JavaScript numbers are modelled by the type JSVal
(NaN, the two infinities, or an exact value); concrete coordinates are exact
rationals.  The square root and arccos of the source map to Real.sqrt and
Real.arccos. -/

set_option maxHeartbeats 1000000

open scoped Classical

namespace CameraMeasure

/-- A 2D point (x, y) in surface pixel space (source type Pt, line 34).
Coordinates are modelled as exact rationals. -/
structure Pt where
  x : ℚ
  y : ℚ
  deriving DecidableEq

/-- A distance measurement: two points plus a stable identifier (source type
Segment, line 35).  crypto.randomUUID is modelled by a fresh counter value,
following the spec note that identifiers should come from an injected
generator. -/
structure Segment where
  a : Pt
  b : Pt
  id : ℕ
  deriving DecidableEq

/-- An angle measurement: three points with b the vertex, plus a stable
identifier (source type Angle, line 36). -/
structure Angle where
  a : Pt
  b : Pt
  c : Pt
  id : ℕ
  deriving DecidableEq

/-- A JavaScript number: NaN, plus or minus Infinity, or a finite value. -/
inductive JSVal
  | nan
  | inf
  | ninf
  | num (x : ℝ)

/-- The isNaN test applied by the calibrate branch (source line 300). -/
def JSVal.isNaN : JSVal → Bool
  | .nan => true
  | _ => false

/-- The JS comparison v > 0: false for NaN, true for Infinity. -/
def JSVal.gtZero : JSVal → Prop
  | .nan => False
  | .inf => True
  | .ninf => False
  | .num x => 0 < x

/-- JS truthiness of a number: false exactly for 0 and NaN. -/
def JSVal.truthy : JSVal → Prop
  | .nan => False
  | .inf => True
  | .ninf => True
  | .num x => x ≠ 0

/-- Modelled from the spec: a finite positive number, the condition the spec
requires of the calibration real length. -/
def JSVal.finitePositive : JSVal → Prop
  | .num x => 0 < x
  | _ => False

/-- JS multiplication extended to NaN and the infinities (signed zeros are
collapsed to num 0). -/
noncomputable def jsMul : JSVal → JSVal → JSVal
  | .nan, _ => .nan
  | _, .nan => .nan
  | .inf, .inf => .inf
  | .inf, .ninf => .ninf
  | .ninf, .inf => .ninf
  | .ninf, .ninf => .inf
  | .inf, .num y => if y = 0 then .nan else if 0 < y then .inf else .ninf
  | .ninf, .num y => if y = 0 then .nan else if 0 < y then .ninf else .inf
  | .num x, .inf => if x = 0 then .nan else if 0 < x then .inf else .ninf
  | .num x, .ninf => if x = 0 then .nan else if 0 < x then .ninf else .inf
  | .num x, .num y => .num (x * y)

/-- JS division extended to NaN and the infinities (signed zeros are
collapsed to num 0; division of a finite nonzero value by zero gives a
signed infinity, 0 / 0 gives NaN). -/
noncomputable def jsDiv : JSVal → JSVal → JSVal
  | .nan, _ => .nan
  | _, .nan => .nan
  | .inf, .inf => .nan
  | .inf, .ninf => .nan
  | .ninf, .inf => .nan
  | .ninf, .ninf => .nan
  | .inf, .num y => if 0 ≤ y then .inf else .ninf
  | .ninf, .num y => if 0 ≤ y then .ninf else .inf
  | .num _, .inf => .num 0
  | .num _, .ninf => .num 0
  | .num x, .num y =>
      if y = 0 then (if x = 0 then .nan else if 0 < x then .inf else .ninf)
      else .num (x / y)

/-- Euclidean pixel distance, source line 463:
dist = (a, b) => Math.hypot(a.x - b.x, a.y - b.y). -/
noncomputable def dist (a b : Pt) : ℝ :=
  Real.sqrt (((a.x : ℝ) - (b.x : ℝ)) ^ 2 + ((a.y : ℝ) - (b.y : ℝ)) ^ 2)

/-- The angle at vertex b in degrees, source lines 464 to 472: the dot product
of the vectors a - b and c - b divided by the product of their lengths,
clamped into the interval from -1 to 1, then acos and conversion to degrees.
Math.hypot is Real.sqrt of the sum of squares; Math.acos is Real.arccos. -/
noncomputable def angleAtVertex (a b c : Pt) : ℝ :=
  Real.arccos (max (-1) (min 1
    ((((a.x : ℝ) - (b.x : ℝ)) * ((c.x : ℝ) - (b.x : ℝ)) +
      ((a.y : ℝ) - (b.y : ℝ)) * ((c.y : ℝ) - (b.y : ℝ))) /
     (Real.sqrt (((a.x : ℝ) - (b.x : ℝ)) ^ 2 + ((a.y : ℝ) - (b.y : ℝ)) ^ 2) *
      Real.sqrt (((c.x : ℝ) - (b.x : ℝ)) ^ 2 + ((c.y : ℝ) - (b.y : ℝ)) ^ 2))))) * 180 / Real.pi

/-- The calibrate completion step, source lines 293 to 307: computes the pixel
distance of the two reference points and, when the prompt reply parses to a
value that is not NaN and is greater than zero, sets unit-per-pixel to
value / distance; otherwise the current scale is left unchanged.  The input
argument is the parseFloat of the prompt reply; none models a cancelled
prompt or an empty reply, which the source rejects with the if (input)
truthiness test before parsing. -/
noncomputable def resolveCalibration (a b : Pt) (input : Option JSVal)
    (cur : Option JSVal) : Option JSVal :=
  match input with
  | none => cur
  | some val =>
      if val.isNaN = false ∧ val.gtZero then some (jsDiv val (.num (dist a b)))
      else cur

/-- Pixel length to display units, source lines 47 to 50: null when the scale
is unset or falsy (0 or NaN), otherwise px times the scale. -/
noncomputable def pxToUnit (scale : Option JSVal) (px : JSVal) : Option JSVal :=
  match scale with
  | none => none
  | some v => if v.truthy then some (jsMul px v) else none

/-- The display unit, source line 44: one of mm, cm, in. -/
inductive LenUnit
  | mm
  | cm
  | inch
  deriving DecidableEq

/-- The string stored for the unit in exports ("mm", "cm", "in"). -/
def LenUnit.str : LenUnit → String
  | .mm => "mm"
  | .cm => "cm"
  | .inch => "in"

/-- The interaction mode, source line 38. -/
inductive Mode
  | select
  | measure
  | calibrate
  | angle
  deriving DecidableEq

/-- The measurement-relevant component state: mode, pending points, committed
entities, unit, calibration scale, frozen flag, and the injected fresh-id
counter standing in for crypto.randomUUID. -/
structure AppState where
  mode : Mode
  tempPts : List Pt
  segments : List Segment
  angles : List Angle
  unit : LenUnit
  unitPerPx : Option JSVal
  isFrozen : Bool
  nextId : ℕ

/-- The initial state of the component (useState initial values: mode
"measure", empty lists, unit "mm", scale null, not frozen). -/
def initState : AppState :=
  { mode := .measure, tempPts := [], segments := [], angles := [],
    unit := .mm, unitPerPx := none, isFrozen := false, nextId := 0 }

/-- The freeze command, source lines 265 to 268 (the canvas snapshot itself
is outside the measurement model). -/
def freeze (s : AppState) : AppState := { s with isFrozen := true }

/-- The resume command, source lines 270 to 272. -/
def resume (s : AppState) : AppState := { s with isFrozen := false }

/-- The click handler, source lines 275 to 325, after the client-to-surface
coordinate transform (which is outside the model): appends the clicked point
to the pending buffer and, when the buffer reaches the arity of the active
mode, commits a Segment (measure, 2 points), resolves the calibration
(calibrate, 2 points plus the prompt reply), or commits an Angle (angle,
3 points); select mode ignores clicks.  Note that the handler never reads
the frozen flag. -/
noncomputable def handleOverlayClick (s : AppState) (p : Pt)
    (promptResult : Option JSVal) : AppState :=
  match s.mode with
  | .measure =>
      let pts := s.tempPts ++ [p]
      if pts.length = 2 then
        { s with
          segments := s.segments ++ [{ a := pts.getD 0 p, b := pts.getD 1 p, id := s.nextId }],
          tempPts := [], nextId := s.nextId + 1 }
      else { s with tempPts := pts }
  | .calibrate =>
      let pts := s.tempPts ++ [p]
      if pts.length = 2 then
        { s with
          unitPerPx := resolveCalibration (pts.getD 0 p) (pts.getD 1 p) promptResult s.unitPerPx,
          tempPts := [] }
      else { s with tempPts := pts }
  | .angle =>
      let pts := s.tempPts ++ [p]
      if pts.length = 3 then
        { s with
          angles := s.angles ++ [{ a := pts.getD 0 p, b := pts.getD 1 p, c := pts.getD 2 p, id := s.nextId }],
          tempPts := [], nextId := s.nextId + 1 }
      else { s with tempPts := pts }
  | .select => s

/-- Mode switch to calibrate, source lines 475 to 478: clears the pending
buffer. -/
def startCalibrate (s : AppState) : AppState := { s with mode := .calibrate, tempPts := [] }

/-- Mode switch to measure, source lines 479 to 482: clears the pending
buffer. -/
def startMeasure (s : AppState) : AppState := { s with mode := .measure, tempPts := [] }

/-- Mode switch to angle, source lines 483 to 486: clears the pending
buffer. -/
def startAngle (s : AppState) : AppState := { s with mode := .angle, tempPts := [] }

/-- The clear-measurements button handler, source line 544: empties segments,
angles and the pending buffer, leaving the calibration scale and unit
untouched. -/
def clearMeasurements (s : AppState) : AppState :=
  { s with segments := [], angles := [], tempPts := [] }

/-- The reset-all handler clearAll, source lines 333 to 339: additionally
resets the calibration scale to null. -/
def clearAll (s : AppState) : AppState :=
  { s with segments := [], angles := [], tempPts := [], unitPerPx := none }

/-- An RGBA raster: width, height, and the byte at each flat index of the
data array (indices outside the buffer read as 0; the source never reads
them). -/
structure Image where
  width : ℕ
  height : ℕ
  data : ℕ → ℕ

/-- The flat RGBA index, source line 433: idx = (x, y, c) => (y * width + x) * 4 + c. -/
def idx (w x y c : ℕ) : ℕ := (y * w + x) * 4 + c

/-- Pointwise array store: the function equal to d except at index i, where
it is v. -/
def upd (d : ℕ → ℕ) (i v : ℕ) : ℕ → ℕ := fun j => if j = i then v else d j

/-- The luminance of the pixel at (x, y), source line 444:
gray = 0.299 r + 0.587 g + 0.114 b. -/
def grayAt (d : ℕ → ℕ) (w x y : ℕ) : ℚ :=
  0.299 * (d (idx w x y 0) : ℚ) + 0.587 * (d (idx w x y 1) : ℚ) + 0.114 * (d (idx w x y 2) : ℚ)

/-- The two Sobel accumulations sx and sy at interior pixel (x, y), source
lines 437 to 449, with the fixed 3 by 3 loop unrolled in source order
(j = -1..1 outer, i = -1..1 inner, k = (j+1)*3 + (i+1)) and the kernel
entries gx = [-1,0,1,-2,0,2,-1,0,1] and gy = [-1,-2,-1,0,0,0,1,2,1]
inlined at their k positions. -/
def sobelSums (d : ℕ → ℕ) (w x y : ℕ) : ℚ × ℚ :=
  let t0 := grayAt d w (x - 1) (y - 1)
  let t1 := grayAt d w x (y - 1)
  let t2 := grayAt d w (x + 1) (y - 1)
  let t3 := grayAt d w (x - 1) y
  let t4 := grayAt d w x y
  let t5 := grayAt d w (x + 1) y
  let t6 := grayAt d w (x - 1) (y + 1)
  let t7 := grayAt d w x (y + 1)
  let t8 := grayAt d w (x + 1) (y + 1)
  (t0 * (-1) + t1 * 0 + t2 * 1 + t3 * (-2) + t4 * 0 + t5 * 2 + t6 * (-1) + t7 * 0 + t8 * 1,
   t0 * (-1) + t1 * (-2) + t2 * (-1) + t3 * 0 + t4 * 0 + t5 * 0 + t6 * 1 + t7 * 2 + t8 * 1)

/-- The byte stored for squared gradient magnitude s, source lines 450 to 455:
models v = Math.max(0, Math.min(255, Math.sqrt(s))) assigned into a
Uint8ClampedArray element (whose clamped store rounds half to even),
computed exactly on rationals: min 255 (round half even of the real square
root of s).  The lower clamp of the source is a no-op since s is a sum of
squares.  When the root reaches 255.5 the stored byte is 255 outright;
below that the floor of the root is found in the byte range and the
fractional part is settled by comparing s with the squared half-integer
between the two candidates. -/
def byteOfMagSq (s : ℚ) : ℕ :=
  if ((511 : ℚ) / 2) ^ 2 ≤ s then 255
  else
    let n : ℕ := Nat.findGreatest (fun k => ((k * k : ℕ) : ℚ) ≤ s) 255
    let tie : ℚ := ((2 * n + 1 : ℕ) : ℚ) ^ 2 / 4
    min 255 (if s < tie then n else if tie < s then n + 1 else if n % 2 = 0 then n else n + 1)

/-- One iteration of the interior loop body, source lines 437 to 456: writes
the clamped gradient magnitude to the three color channels of (x, y) in the
output buffer and 255 to its alpha channel. -/
def writePixel (img : Image) (d : ℕ → ℕ) (x y : ℕ) : ℕ → ℕ :=
  let w := img.width
  let s := sobelSums img.data w x y
  let v := byteOfMagSq (s.1 * s.1 + s.2 * s.2)
  upd (upd (upd (upd d (idx w x y 0) v) (idx w x y 1) v) (idx w x y 2) v) (idx w x y 3) 255

/-- The edge filter, source lines 416 to 460: reads the current frame, builds
a fresh zero-initialized output buffer (createImageData), runs the Sobel
loop over the interior pixels (x from 1 to width - 2, y from 1 to
height - 2), and replaces the whole canvas with the output buffer
(putImageData). -/
def applyEdgeFilter (img : Image) : Image :=
  { width := img.width, height := img.height,
    data :=
      (List.range' 1 (img.height - 2)).foldl
        (fun d y => (List.range' 1 (img.width - 2)).foldl
          (fun d2 x => writePixel img d2 x y) d)
        (fun _ => 0) }

/-- Modelled from the spec: luminance 0.299 R + 0.587 G + 0.114 B. -/
def specLuminance (r g b : ℚ) : ℚ := 0.299 * r + 0.587 * g + 0.114 * b

/-- Modelled from the spec: the luminance field of the frame. -/
def specLumAt (img : Image) (x y : ℕ) : ℚ :=
  specLuminance (img.data (idx img.width x y 0) : ℚ)
    (img.data (idx img.width x y 1) : ℚ) (img.data (idx img.width x y 2) : ℚ)

/-- Modelled from the spec: the horizontal Sobel response, the luminance
field correlated with Gx = [-1,0,1; -2,0,2; -1,0,1] (rows top to bottom). -/
def specGradX (img : Image) (x y : ℕ) : ℚ :=
  (-1) * specLumAt img (x - 1) (y - 1) + 0 * specLumAt img x (y - 1) + 1 * specLumAt img (x + 1) (y - 1) +
  (-2) * specLumAt img (x - 1) y + 0 * specLumAt img x y + 2 * specLumAt img (x + 1) y +
  (-1) * specLumAt img (x - 1) (y + 1) + 0 * specLumAt img x (y + 1) + 1 * specLumAt img (x + 1) (y + 1)

/-- Modelled from the spec: the vertical Sobel response, the luminance field
correlated with Gy = [-1,-2,-1; 0,0,0; 1,2,1] (rows top to bottom). -/
def specGradY (img : Image) (x y : ℕ) : ℚ :=
  (-1) * specLumAt img (x - 1) (y - 1) + (-2) * specLumAt img x (y - 1) + (-1) * specLumAt img (x + 1) (y - 1) +
  0 * specLumAt img (x - 1) y + 0 * specLumAt img x y + 0 * specLumAt img (x + 1) y +
  1 * specLumAt img (x - 1) (y + 1) + 2 * specLumAt img x (y + 1) + 1 * specLumAt img (x + 1) (y + 1)

/-- Modelled from the spec: the reference output byte at channel c of an
interior pixel: the gradient magnitude, clamped and stored, replicated on
the three color channels, with alpha fully opaque. -/
def specEdgeValue (img : Image) (x y c : ℕ) : ℕ :=
  if c = 3 then 255
  else byteOfMagSq (specGradX img x y * specGradX img x y + specGradY img x y * specGradY img x y)

/-- A 3 by 3 test frame whose 36 bytes are all 255 (opaque white). -/
def img255 : Image := { width := 3, height := 3, data := fun i => if i < 36 then 255 else 0 }

/-- A 3 by 3 test frame with a horizontal intensity ramp: the pixel in
column x has r = g = b = 100 x and alpha 255. -/
def imgRamp : Image :=
  { width := 3, height := 3, data := fun i => if i % 4 = 3 then 255 else 100 * ((i / 4) % 3) }

/-- A CSV cell: either a literal string or a still-unserialized number
together with the digit count of the toFixed call that the source applies
to it when joining the document. -/
inductive CsvCell
  | lit (s : String)
  | num (v : JSVal) (decimals : ℕ)

/-- The segment group header row, source line 390. -/
def segHeaderRow : List CsvCell :=
  [.lit "type", .lit "x1", .lit "y1", .lit "x2", .lit "y2",
   .lit "length_px", .lit "length_unit", .lit "unit"]

/-- The angle group header row, source line 398. -/
def angleHeaderRow : List CsvCell :=
  [.lit "type", .lit "ax", .lit "ay", .lit "bx", .lit "by", .lit "cx", .lit "cy",
   .lit "angle_deg", .lit "-"]

/-- The length_unit cell of a segment row, source line 395: the calibrated
length when the scale is truthy, otherwise the empty string. -/
noncomputable def lengthUnitCell (upx : Option JSVal) (pxLen : ℝ) : CsvCell :=
  match upx with
  | none => .lit ""
  | some v => if v.truthy then .num (jsMul (.num pxLen) v) 3 else .lit ""

/-- One segment data row, source lines 391 to 397. -/
noncomputable def segCsvRow (upx : Option JSVal) (u : LenUnit) (s : Segment) : List CsvCell :=
  [.lit "segment",
   .num (.num (s.a.x : ℝ)) 2, .num (.num (s.a.y : ℝ)) 2,
   .num (.num (s.b.x : ℝ)) 2, .num (.num (s.b.y : ℝ)) 2,
   .num (.num (dist s.a s.b)) 3,
   lengthUnitCell upx (dist s.a s.b),
   .lit u.str]

/-- One angle data row, source lines 399 to 403. -/
noncomputable def angleCsvRow (an : Angle) : List CsvCell :=
  [.lit "angle",
   .num (.num (an.a.x : ℝ)) 2, .num (.num (an.a.y : ℝ)) 2,
   .num (.num (an.b.x : ℝ)) 2, .num (.num (an.b.y : ℝ)) 2,
   .num (.num (an.c.x : ℝ)) 2, .num (.num (an.c.y : ℝ)) 2,
   .num (.num (angleAtVertex an.a an.b an.c)) 2, .lit "-"]

/-- The rows array built by downloadCSV, source lines 389 to 404: the segment
header, one row per segment, the angle header, one row per angle.  The final
string serialization (toFixed on each numeric cell, commas and newlines) is
kept symbolic in CsvCell. -/
noncomputable def csvRows (s : AppState) : List (List CsvCell) :=
  segHeaderRow ::
    (s.segments.map (segCsvRow s.unitPerPx s.unit) ++
      angleHeaderRow :: s.angles.map angleCsvRow)

theorem upd_self (d : ℕ → ℕ) (i v : ℕ) : upd d i v i = v := if_pos rfl

theorem upd_ne (d : ℕ → ℕ) {i j : ℕ} (v : ℕ) (h : j ≠ i) : upd d i v j = d j := if_neg h

theorem idx_c_ne {w x y c1 c2 : ℕ} (h : c1 ≠ c2) : idx w x y c1 ≠ idx w x y c2 :=
  fun he => h (Nat.add_left_cancel he)

theorem rowcol_inj {w x1 y1 x2 y2 : ℕ} (hx1 : x1 < w) (hx2 : x2 < w)
    (h : y1 * w + x1 = y2 * w + x2) : x1 = x2 ∧ y1 = y2 := by
  have hw : 0 < w := by omega
  have hx : x1 = x2 := by
    have h1 : (x1 + y1 * w) % w = (x2 + y2 * w) % w := by
      rw [show x1 + y1 * w = y1 * w + x1 from Nat.add_comm _ _,
          show x2 + y2 * w = y2 * w + x2 from Nat.add_comm _ _, h]
    rwa [Nat.add_mul_mod_self_right, Nat.add_mul_mod_self_right,
      Nat.mod_eq_of_lt hx1, Nat.mod_eq_of_lt hx2] at h1
  subst hx
  have h2 : y1 * w = y2 * w := by omega
  exact ⟨rfl, Nat.eq_of_mul_eq_mul_right hw h2⟩

theorem idx_inj {w x1 y1 c1 x2 y2 c2 : ℕ} (hx1 : x1 < w) (hx2 : x2 < w)
    (hc1 : c1 < 4) (hc2 : c2 < 4) (h : idx w x1 y1 c1 = idx w x2 y2 c2) :
    x1 = x2 ∧ y1 = y2 ∧ c1 = c2 := by
  unfold idx at h
  have h4 : y1 * w + x1 = y2 * w + x2 ∧ c1 = c2 := by
    set A := y1 * w + x1 with hA
    set B := y2 * w + x2 with hB
    omega
  obtain ⟨hr, hc⟩ := h4
  obtain ⟨hx, hy⟩ := rowcol_inj hx1 hx2 hr
  exact ⟨hx, hy, hc⟩

theorem writePixel_ne (img : Image) (d : ℕ → ℕ) (x y j : ℕ)
    (h : ∀ c, c < 4 → j ≠ idx img.width x y c) :
    writePixel img d x y j = d j := by
  simp only [writePixel]
  rw [upd_ne _ _ (h 3 (by omega)), upd_ne _ _ (h 2 (by omega)),
      upd_ne _ _ (h 1 (by omega)), upd_ne _ _ (h 0 (by omega))]

theorem writePixel_at (img : Image) (d : ℕ → ℕ) (x y c : ℕ) (hc : c < 4) :
    writePixel img d x y (idx img.width x y c) =
      if c = 3 then 255
      else byteOfMagSq
        ((sobelSums img.data img.width x y).1 * (sobelSums img.data img.width x y).1 +
         (sobelSums img.data img.width x y).2 * (sobelSums img.data img.width x y).2) := by
  simp only [writePixel]
  interval_cases c
  · rw [upd_ne _ _ (idx_c_ne (by omega)), upd_ne _ _ (idx_c_ne (by omega)),
        upd_ne _ _ (idx_c_ne (by omega)), upd_self]
    rfl
  · rw [upd_ne _ _ (idx_c_ne (by omega)), upd_ne _ _ (idx_c_ne (by omega)), upd_self]
    rfl
  · rw [upd_ne _ _ (idx_c_ne (by omega)), upd_self]
    rfl
  · rw [upd_self]
    rfl

theorem rowFold_ne (img : Image) (y j : ℕ) (xs : List ℕ) (d : ℕ → ℕ)
    (h : ∀ x ∈ xs, ∀ c, c < 4 → j ≠ idx img.width x y c) :
    (xs.foldl (fun d2 x => writePixel img d2 x y) d) j = d j := by
  induction xs generalizing d with
  | nil => rfl
  | cons a t ih =>
      rw [List.foldl_cons, ih _ (fun x hx => h x (List.mem_cons_of_mem _ hx)),
          writePixel_ne _ _ _ _ _ (h a (List.mem_cons_self _ _))]

theorem gridFold_ne (img : Image) (j : ℕ) (ys xs : List ℕ) (d : ℕ → ℕ)
    (h : ∀ y ∈ ys, ∀ x ∈ xs, ∀ c, c < 4 → j ≠ idx img.width x y c) :
    (ys.foldl (fun dacc y => xs.foldl (fun d2 x => writePixel img d2 x y) dacc) d) j = d j := by
  induction ys generalizing d with
  | nil => rfl
  | cons a t ih =>
      rw [List.foldl_cons, ih _ (fun y hy => h y (List.mem_cons_of_mem _ hy)),
          rowFold_ne _ _ _ _ _ (h a (List.mem_cons_self _ _))]

theorem rowFold_at (img : Image) (y c : ℕ) (xs : List ℕ) (d : ℕ → ℕ) (x : ℕ)
    (hmem : x ∈ xs) (hnd : xs.Nodup) (hwlt : ∀ z ∈ xs, z < img.width) (hc : c < 4) :
    (xs.foldl (fun d2 x => writePixel img d2 x y) d) (idx img.width x y c) =
      if c = 3 then 255
      else byteOfMagSq
        ((sobelSums img.data img.width x y).1 * (sobelSums img.data img.width x y).1 +
         (sobelSums img.data img.width x y).2 * (sobelSums img.data img.width x y).2) := by
  induction xs generalizing d with
  | nil => cases hmem
  | cons a t ih =>
      rw [List.foldl_cons]
      rcases List.mem_cons.mp hmem with rfl | hmt
      · have ha : ∀ z ∈ t, ∀ c2, c2 < 4 →
            idx img.width x y c ≠ idx img.width z y c2 := by
          intro z hz c2 hc2 he
          have hzx : z ≠ x := fun hzx => (List.nodup_cons.mp hnd).1 (hzx ▸ hz)
          exact hzx ((idx_inj (hwlt x (List.mem_cons_self _ _))
            (hwlt z (List.mem_cons_of_mem _ hz)) hc hc2 he).1).symm
        rw [rowFold_ne img y _ t _ ha, writePixel_at img d x y c hc]
      · exact ih _ hmt (List.nodup_cons.mp hnd).2
          (fun z hz => hwlt z (List.mem_cons_of_mem _ hz))

theorem gridFold_at (img : Image) (c : ℕ) (ys xs : List ℕ) (d : ℕ → ℕ) (x y : ℕ)
    (hmy : y ∈ ys) (hmx : x ∈ xs) (hndy : ys.Nodup) (hndx : xs.Nodup)
    (hwlt : ∀ z ∈ xs, z < img.width) (hc : c < 4) :
    (ys.foldl (fun dacc y => xs.foldl (fun d2 x => writePixel img d2 x y) dacc) d)
        (idx img.width x y c) =
      if c = 3 then 255
      else byteOfMagSq
        ((sobelSums img.data img.width x y).1 * (sobelSums img.data img.width x y).1 +
         (sobelSums img.data img.width x y).2 * (sobelSums img.data img.width x y).2) := by
  induction ys generalizing d with
  | nil => cases hmy
  | cons a t ih =>
      rw [List.foldl_cons]
      rcases List.mem_cons.mp hmy with rfl | hmt
      · have ha : ∀ z ∈ t, ∀ x2 ∈ xs, ∀ c2, c2 < 4 →
            idx img.width x y c ≠ idx img.width x2 z c2 := by
          intro z hz x2 hx2 c2 hc2 he
          have hzy : z ≠ y := fun hzy => (List.nodup_cons.mp hndy).1 (hzy ▸ hz)
          exact hzy ((idx_inj (hwlt x hmx) (hwlt x2 hx2) hc hc2 he).2.1).symm
        rw [gridFold_ne img _ t xs _ ha,
            rowFold_at img y c xs d x hmx hndx hwlt hc]
      · exact ih _ hmt (List.nodup_cons.mp hndy).2

theorem nodup_range_one (n : ℕ) : (List.range' 1 n).Nodup :=
  (List.pairwise_lt_range' 1 n).imp ne_of_lt

theorem applyEdgeFilter_data (img : Image) (x y c : ℕ)
    (hx1 : 1 ≤ x) (hx2 : x ≤ img.width - 2) (hy1 : 1 ≤ y) (hy2 : y ≤ img.height - 2)
    (hc : c < 4) :
    (applyEdgeFilter img).data (idx img.width x y c) =
      if c = 3 then 255
      else byteOfMagSq
        ((sobelSums img.data img.width x y).1 * (sobelSums img.data img.width x y).1 +
         (sobelSums img.data img.width x y).2 * (sobelSums img.data img.width x y).2) := by
  have hw : 3 ≤ img.width := by omega
  have hh : 3 ≤ img.height := by omega
  have hmx : x ∈ List.range' 1 (img.width - 2) := List.mem_range'_1.mpr ⟨hx1, by omega⟩
  have hmy : y ∈ List.range' 1 (img.height - 2) := List.mem_range'_1.mpr ⟨hy1, by omega⟩
  have hwlt : ∀ z ∈ List.range' 1 (img.width - 2), z < img.width := by
    intro z hz
    have := List.mem_range'_1.mp hz
    omega
  simp only [applyEdgeFilter]
  exact gridFold_at img c _ _ _ x y hmy hmx (nodup_range_one _) (nodup_range_one _) hwlt hc

theorem dist_nonneg (a b : Pt) : 0 ≤ dist a b := Real.sqrt_nonneg _

theorem dist_pos_of_ne {a b : Pt} (h : a ≠ b) : 0 < dist a b := by
  apply Real.sqrt_pos.mpr
  have hxy : a.x ≠ b.x ∨ a.y ≠ b.y := by
    by_contra hc
    push_neg at hc
    exact h (by cases a; cases b; simp_all)
  rcases hxy with h1 | h1
  · have hx : ((a.x : ℝ)) - (b.x : ℝ) ≠ 0 := sub_ne_zero.mpr (by exact_mod_cast h1)
    have h2 : 0 < ((a.x : ℝ) - (b.x : ℝ)) ^ 2 :=
      (sq_nonneg _).lt_of_ne (Ne.symm (pow_ne_zero 2 hx))
    nlinarith [sq_nonneg ((a.y : ℝ) - (b.y : ℝ))]
  · have hy : ((a.y : ℝ)) - (b.y : ℝ) ≠ 0 := sub_ne_zero.mpr (by exact_mod_cast h1)
    have h2 : 0 < ((a.y : ℝ) - (b.y : ℝ)) ^ 2 :=
      (sq_nonneg _).lt_of_ne (Ne.symm (pow_ne_zero 2 hy))
    nlinarith [sq_nonneg ((a.x : ℝ) - (b.x : ℝ))]

theorem dist_vertical_100 : dist ⟨0, 0⟩ ⟨0, 100⟩ = 100 := by
  unfold dist
  norm_num
  rw [show ((10000 : ℝ)) = 100 ^ 2 by norm_num]
  exact Real.sqrt_sq (by norm_num)

theorem dist_three_four : dist ⟨0, 0⟩ ⟨3, 4⟩ = 5 := by
  unfold dist
  norm_num
  rw [show ((25 : ℝ)) = 5 ^ 2 by norm_num]
  exact Real.sqrt_sq (by norm_num)

/-- Claim C9: for non-degenerate triples the measured angle is symmetric in
its outer points and lies in the closed interval from 0 to 180 degrees. -/
theorem c9_angle_symmetric_and_in_range (a b c : Pt) (_h1 : a ≠ b) (_h2 : c ≠ b) :
    angleAtVertex a b c = angleAtVertex c b a ∧
    0 ≤ angleAtVertex a b c ∧ angleAtVertex a b c ≤ 180 := by
  refine ⟨?_, ?_, ?_⟩
  · unfold angleAtVertex
    rw [show (((a.x : ℝ) - (b.x : ℝ)) * ((c.x : ℝ) - (b.x : ℝ)) +
          ((a.y : ℝ) - (b.y : ℝ)) * ((c.y : ℝ) - (b.y : ℝ)))
        = (((c.x : ℝ) - (b.x : ℝ)) * ((a.x : ℝ) - (b.x : ℝ)) +
          ((c.y : ℝ) - (b.y : ℝ)) * ((a.y : ℝ) - (b.y : ℝ))) from by ring,
      mul_comm (Real.sqrt (((a.x : ℝ) - (b.x : ℝ)) ^ 2 + ((a.y : ℝ) - (b.y : ℝ)) ^ 2))
        (Real.sqrt (((c.x : ℝ) - (b.x : ℝ)) ^ 2 + ((c.y : ℝ) - (b.y : ℝ)) ^ 2))]
  · unfold angleAtVertex
    exact div_nonneg (mul_nonneg (Real.arccos_nonneg _) (by norm_num)) Real.pi_pos.le
  · unfold angleAtVertex
    rw [div_le_iff₀ Real.pi_pos]
    nlinarith [Real.arccos_le_pi (max (-1) (min 1
      ((((a.x : ℝ) - (b.x : ℝ)) * ((c.x : ℝ) - (b.x : ℝ)) +
        ((a.y : ℝ) - (b.y : ℝ)) * ((c.y : ℝ) - (b.y : ℝ))) /
       (Real.sqrt (((a.x : ℝ) - (b.x : ℝ)) ^ 2 + ((a.y : ℝ) - (b.y : ℝ)) ^ 2) *
        Real.sqrt (((c.x : ℝ) - (b.x : ℝ)) ^ 2 + ((c.y : ℝ) - (b.y : ℝ)) ^ 2))))),
      Real.pi_pos]

/-- Witness for C9 at the concrete right angle a = (1,0), b = (0,0), c = (0,1). -/
theorem c9_angle_symmetric_and_in_range_witness :
    (⟨1, 0⟩ : Pt) ≠ ⟨0, 0⟩ ∧ (⟨0, 1⟩ : Pt) ≠ ⟨0, 0⟩ ∧
    (angleAtVertex ⟨1, 0⟩ ⟨0, 0⟩ ⟨0, 1⟩ = angleAtVertex ⟨0, 1⟩ ⟨0, 0⟩ ⟨1, 0⟩ ∧
     0 ≤ angleAtVertex ⟨1, 0⟩ ⟨0, 0⟩ ⟨0, 1⟩ ∧ angleAtVertex ⟨1, 0⟩ ⟨0, 0⟩ ⟨0, 1⟩ ≤ 180) :=
  ⟨by decide, by decide,
    c9_angle_symmetric_and_in_range ⟨1, 0⟩ ⟨0, 0⟩ ⟨0, 1⟩ (by decide) (by decide)⟩

/-- Claim C5: completing calibration with two distinct points and a positive
real length L yields scale L / D where D is the pixel distance between them,
and converting the pixel length D back to display units returns exactly L. -/
theorem c5_calibration_roundtrip (a b : Pt) (cur : Option JSVal) (L : ℝ)
    (hab : a ≠ b) (hL : 0 < L) :
    resolveCalibration a b (some (.num L)) cur = some (.num (L / dist a b)) ∧
    pxToUnit (some (.num (L / dist a b))) (.num (dist a b)) = some (.num L) := by
  have hd : 0 < dist a b := dist_pos_of_ne hab
  constructor
  · simp only [resolveCalibration, jsDiv]
    rw [if_pos ⟨rfl, hL⟩, if_neg hd.ne']
  · simp only [pxToUnit, jsMul]
    rw [if_pos (show (JSVal.num (L / dist a b)).truthy from div_ne_zero hL.ne' hd.ne')]
    congr 2
    field_simp

/-- Witness for C5: points (0,0) and (0,100) with real length 50 give scale
0.5, and the pixel length 100 then converts back to 50 display units. -/
theorem c5_calibration_roundtrip_witness :
    resolveCalibration ⟨0, 0⟩ ⟨0, 100⟩ (some (.num 50)) none = some (.num 0.5) ∧
    pxToUnit (some (.num 0.5)) (.num 100) = some (.num 50) := by
  have h := c5_calibration_roundtrip ⟨0, 0⟩ ⟨0, 100⟩ none 50 (by decide) (by norm_num)
  rw [dist_vertical_100] at h
  rw [show ((0.5 : ℝ)) = 50 / 100 by norm_num]
  exact h

/-- Counterexample to claim C3 as stated: the parsed real length +Infinity is
not a finite positive number, yet the calibrate branch accepts it (the source
only tests isNaN and positivity, never finiteness) and changes the scale from
null to an infinite value. -/
theorem c3_infinite_length_accepted :
    ¬ JSVal.finitePositive .inf ∧
    resolveCalibration ⟨0, 0⟩ ⟨3, 4⟩ (some .inf) none = some .inf := by
  constructor
  · simp [JSVal.finitePositive]
  · simp only [resolveCalibration, jsDiv]
    rw [if_pos ⟨rfl, trivial⟩, if_pos (dist_nonneg _ _)]

/-- Claim C3 amended: with two distinct reference points, the calibrate branch
leaves the scale unchanged when the prompt reply is empty or cancelled, parses
to NaN, or parses to a value not greater than zero (zero, negative, or
-Infinity); it sets the scale to value / pixelDistance for every value
greater than zero including +Infinity, for which the stored scale is
infinite. -/
theorem c3_resolveCalibration_cases (a b : Pt) (cur : Option JSVal) (hab : a ≠ b) :
    resolveCalibration a b none cur = cur ∧
    resolveCalibration a b (some .nan) cur = cur ∧
    resolveCalibration a b (some .ninf) cur = cur ∧
    (∀ x : ℝ, x ≤ 0 → resolveCalibration a b (some (.num x)) cur = cur) ∧
    (∀ x : ℝ, 0 < x →
      resolveCalibration a b (some (.num x)) cur = some (.num (x / dist a b))) ∧
    resolveCalibration a b (some .inf) cur = some .inf := by
  have hd : 0 < dist a b := dist_pos_of_ne hab
  refine ⟨rfl, ?_, ?_, ?_, ?_, ?_⟩
  · simp [resolveCalibration, JSVal.isNaN, JSVal.gtZero]
  · simp [resolveCalibration, JSVal.isNaN, JSVal.gtZero]
  · intro x hx
    simp [resolveCalibration, JSVal.isNaN, JSVal.gtZero, hx.not_lt]
  · intro x hx
    simp only [resolveCalibration, jsDiv]
    rw [if_pos ⟨rfl, hx⟩, if_neg hd.ne']
  · simp only [resolveCalibration, jsDiv]
    rw [if_pos ⟨rfl, trivial⟩, if_pos hd.le]

/-- Witness for C3 at points (0,0) and (3,4): a negative reply and a NaN
reply leave the scale unchanged, and the positive reply 50 sets it to
50 divided by the pixel distance. -/
theorem c3_resolveCalibration_cases_witness :
    resolveCalibration ⟨0, 0⟩ ⟨3, 4⟩ (some (.num (-3))) (some (.num 2)) = some (.num 2) ∧
    resolveCalibration ⟨0, 0⟩ ⟨3, 4⟩ (some .nan) (some (.num 2)) = some (.num 2) ∧
    resolveCalibration ⟨0, 0⟩ ⟨3, 4⟩ (some (.num 50)) none = some (.num (50 / dist ⟨0, 0⟩ ⟨3, 4⟩)) := by
  have h1 := c3_resolveCalibration_cases ⟨0, 0⟩ ⟨3, 4⟩ (some (.num 2)) (by decide)
  have h2 := c3_resolveCalibration_cases ⟨0, 0⟩ ⟨3, 4⟩ none (by decide)
  exact ⟨h1.2.2.2.1 (-3) (by norm_num), h1.2.1, h2.2.2.2.2.1 50 (by norm_num)⟩

/-- Claim C1, code bug evidence: running angle mode on the degenerate triple
a = (0,0), b = (0,0), c = (1,1) from a frozen frame creates the Angle entity
anyway; the source has no degeneracy check, so nothing fails and the entity
is committed, while the length of the vector from the vertex to a is 0, so
the drawn cosine dot / (la lb) is the JS division 0 / 0, that is NaN,
silently clamped to NaN and returned. -/
theorem c1_degenerate_angle_entity_created :
    (handleOverlayClick (handleOverlayClick (handleOverlayClick
        (startAngle (freeze initState)) ⟨0, 0⟩ none) ⟨0, 0⟩ none) ⟨1, 1⟩ none).angles =
      [{ a := ⟨0, 0⟩, b := ⟨0, 0⟩, c := ⟨1, 1⟩, id := 0 }] ∧
    dist ⟨0, 0⟩ ⟨0, 0⟩ = 0 := by
  refine ⟨rfl, ?_⟩
  unfold dist
  norm_num

/-- Counterexample to claim C2 as stated: from the initial, never frozen
state, two measure-mode clicks create a Segment even though the frame is
live; the click handler never consults the frozen flag. -/
theorem c2_live_click_creates_segment :
    initState.isFrozen = false ∧
    (handleOverlayClick initState ⟨0, 0⟩ none).isFrozen = false ∧
    (handleOverlayClick (handleOverlayClick initState ⟨0, 0⟩ none) ⟨3, 4⟩ none).segments =
      [{ a := ⟨0, 0⟩, b := ⟨3, 4⟩, id := 0 }] :=
  ⟨rfl, rfl, rfl⟩

/-- Claim C2 amended: entity creation is independent of the frozen flag; the
click handler produces the same state, apart from carrying the flag through
unchanged, whatever the frozen state is. -/
theorem c2_click_independent_of_frozen (s : AppState) (p : Pt)
    (inp : Option JSVal) (b : Bool) :
    handleOverlayClick { s with isFrozen := b } p inp =
      { handleOverlayClick s p inp with isFrozen := b } := by
  obtain ⟨m, tp, sg, an, u, upx, fz, nid⟩ := s
  cases m <;> simp only [handleOverlayClick] <;> first
    | rfl
    | (split_ifs <;> rfl)

/-- Claim C7: switching modes clears the pending buffer, and an Angle
completed after a switch is built from exactly the three post-switch clicks:
one measure click followed by a switch to angle mode and three clicks yields
the angle (q1, q2, q3), leaking neither the measure click into the angle nor
any segment into the model. -/
theorem c7_mode_switch_clears_pending (s : AppState) (p q1 q2 q3 : Pt)
    (i1 i2 i3 i4 : Option JSVal) :
    (startMeasure s).tempPts = [] ∧ (startAngle s).tempPts = [] ∧
    (startCalibrate s).tempPts = [] ∧
    (handleOverlayClick (handleOverlayClick (handleOverlayClick
        (startAngle (handleOverlayClick (startMeasure s) p i1)) q1 i2) q2 i3) q3 i4).angles =
      s.angles ++ [{ a := q1, b := q2, c := q3, id := s.nextId }] ∧
    (handleOverlayClick (handleOverlayClick (handleOverlayClick
        (startAngle (handleOverlayClick (startMeasure s) p i1)) q1 i2) q2 i3) q3 i4).segments =
      s.segments ∧
    (handleOverlayClick (handleOverlayClick (handleOverlayClick
        (startAngle (handleOverlayClick (startMeasure s) p i1)) q1 i2) q2 i3) q3 i4).tempPts =
      [] :=
  ⟨rfl, rfl, rfl, rfl, rfl, rfl⟩

/-- Claim C10: clear-measurements removes every segment, angle and pending
point but keeps the calibration scale, the unit, the mode and the frozen
flag; reset-all clears the same lists and additionally sets the scale to
null, still keeping the unit. -/
theorem c10_clear_keeps_scale_reset_clears_it (s : AppState) :
    (clearMeasurements s).segments = [] ∧ (clearMeasurements s).angles = [] ∧
    (clearMeasurements s).tempPts = [] ∧
    (clearMeasurements s).unitPerPx = s.unitPerPx ∧
    (clearMeasurements s).unit = s.unit ∧
    (clearMeasurements s).mode = s.mode ∧
    (clearMeasurements s).isFrozen = s.isFrozen ∧
    (clearAll s).segments = [] ∧ (clearAll s).angles = [] ∧
    (clearAll s).tempPts = [] ∧ (clearAll s).unitPerPx = none ∧
    (clearAll s).unit = s.unit :=
  ⟨rfl, rfl, rfl, rfl, rfl, rfl, rfl, rfl, rfl, rfl, rfl, rfl⟩

/-- Counterexample to claim C4 as stated: on the all-white 3 by 3 frame the
filter output at border pixel (0,0), channel 0, differs from the input value
there: putImageData replaces the whole canvas with the createImageData
buffer, whose border bytes were never written and stay 0. -/
theorem c4_border_not_preserved_counterexample :
    (applyEdgeFilter img255).data (idx 3 0 0 0) = 0 ∧
    img255.data (idx 3 0 0 0) = 255 ∧
    (applyEdgeFilter img255).data (idx 3 0 0 0) ≠ img255.data (idx 3 0 0 0) :=
  ⟨by decide, by decide, by decide⟩

/-- Claim C4 amended: after the filter, every pixel of the outermost border
ring holds 0 in all four channels (transparent black, the untouched bytes of
the fresh output buffer that replaces the whole frame), not the input value;
only interior pixels receive edge magnitudes. -/
theorem c4_border_written_zero (img : Image) (x y c : ℕ)
    (hb : x = 0 ∨ y = 0 ∨ x = img.width - 1 ∨ y = img.height - 1)
    (hx : x < img.width) (hy : y < img.height) (hc : c < 4) :
    (applyEdgeFilter img).data (idx img.width x y c) = 0 := by
  have h : ∀ z ∈ List.range' 1 (img.height - 2), ∀ x2 ∈ List.range' 1 (img.width - 2),
      ∀ c2, c2 < 4 → idx img.width x y c ≠ idx img.width x2 z c2 := by
    intro z hz x2 hx2 c2 hc2 he
    have hz1 := List.mem_range'_1.mp hz
    have hx21 := List.mem_range'_1.mp hx2
    have hxw : x2 < img.width := by omega
    obtain ⟨hxe, hye, hce⟩ := idx_inj hx hxw hc hc2 he
    omega
  simp only [applyEdgeFilter]
  rw [gridFold_ne img _ _ _ _ h]

/-- Witness for C4 at the border pixel (0, 2) of the all-white frame. -/
theorem c4_border_written_zero_witness :
    ((0 : ℕ) = 0 ∨ (2 : ℕ) = 0 ∨ (0 : ℕ) = img255.width - 1 ∨ (2 : ℕ) = img255.height - 1) ∧
    (applyEdgeFilter img255).data (idx img255.width 0 2 1) = 0 :=
  ⟨Or.inl rfl,
   c4_border_written_zero img255 0 2 1 (Or.inl rfl) (by decide) (by decide) (by decide)⟩

/-- Claim C6: at every interior pixel and channel, the filter output equals
the reference computation of the spec: luminance 0.299 R + 0.587 G + 0.114 B
of each neighbor, correlation with the two Sobel kernels, magnitude
sqrt(Gx^2 + Gy^2) clamped to the byte range, replicated on the three color
channels, alpha 255. -/
theorem c6_interior_matches_spec (img : Image) (x y c : ℕ)
    (hx1 : 1 ≤ x) (hx2 : x ≤ img.width - 2) (hy1 : 1 ≤ y) (hy2 : y ≤ img.height - 2)
    (hc : c < 4) :
    (applyEdgeFilter img).data (idx img.width x y c) = specEdgeValue img x y c := by
  rw [applyEdgeFilter_data img x y c hx1 hx2 hy1 hy2 hc]
  unfold specEdgeValue
  by_cases h3 : c = 3
  · simp [h3]
  · rw [if_neg h3, if_neg h3]
    have h1 : (sobelSums img.data img.width x y).1 = specGradX img x y := by
      simp only [sobelSums, grayAt, specGradX, specLumAt, specLuminance]
      ring
    have h2 : (sobelSums img.data img.width x y).2 = specGradY img x y := by
      simp only [sobelSums, grayAt, specGradY, specLumAt, specLuminance]
      ring
    rw [h1, h2]

/-- Witness for C6 at the interior pixel (1,1) of the ramp frame, whose
horizontal gradient saturates the byte: both the filter and the reference
computation give 255 on channel 0. -/
theorem c6_interior_matches_spec_witness :
    (1 : ℕ) ≤ 1 ∧ (1 : ℕ) ≤ imgRamp.width - 2 ∧ (0 : ℕ) < 4 ∧
    (applyEdgeFilter imgRamp).data (idx imgRamp.width 1 1 0) = specEdgeValue imgRamp 1 1 0 ∧
    specEdgeValue imgRamp 1 1 0 = 255 :=
  ⟨le_refl 1, by decide, by decide,
   c6_interior_matches_spec imgRamp 1 1 0 (by decide) (by decide) (by decide) (by decide)
     (by decide),
   by norm_num [specEdgeValue, specGradX, specGradY, specLumAt, specLuminance, imgRamp,
     idx, byteOfMagSq]⟩

/-- Claim C8: the CSV rows always consist of the segment header, one data row
per segment each starting with the literal "segment", then the angle header,
then one data row per angle each starting with the literal "angle"; both
headers are always present, and with one segment and zero angles the document
has exactly three rows, with no data row under the angle header. -/
theorem c8_csv_two_headers (s : AppState) :
    (csvRows s).length = 2 + s.segments.length + s.angles.length ∧
    (csvRows s).get? 0 = some segHeaderRow ∧
    (csvRows s).get? (1 + s.segments.length) = some angleHeaderRow ∧
    (∀ i, i < s.segments.length →
      ((csvRows s).get? (1 + i)).bind List.head? = some (CsvCell.lit "segment")) ∧
    (∀ j, j < s.angles.length →
      ((csvRows s).get? (2 + s.segments.length + j)).bind List.head? =
        some (CsvCell.lit "angle")) := by
  refine ⟨?_, rfl, ?_, ?_, ?_⟩
  · simp only [csvRows, List.length_cons, List.length_append, List.length_map]
    omega
  · rw [show 1 + s.segments.length = s.segments.length + 1 from Nat.add_comm _ _]
    simp only [csvRows, List.get?_cons_succ]
    rw [List.get?_append_right (by simp [List.length_map])]
    simp [List.length_map]
  · intro i hi
    rw [show 1 + i = i + 1 from Nat.add_comm _ _]
    simp only [csvRows, List.get?_cons_succ]
    rw [List.get?_append (by simp [List.length_map, hi]), List.get?_map,
      List.get?_eq_get hi]
    simp [segCsvRow]
  · intro j hj
    rw [show 2 + s.segments.length + j = s.segments.length + (1 + j) + 1 from by omega]
    simp only [csvRows, List.get?_cons_succ]
    rw [List.get?_append_right (by simp [List.length_map])]
    simp only [List.length_map]
    rw [show s.segments.length + (1 + j) - s.segments.length = j + 1 from by omega]
    simp only [List.get?_cons_succ]
    rw [List.get?_map, List.get?_eq_get hj]
    simp [angleCsvRow]

end CameraMeasure
